import Mathlib

/-!
Verification of the Tischkicker ranked service (`src/main.py`) against its
natural-language specification.

The FastAPI handlers `add_player`, `add_match`, `get_players` and
`get_leaderboard` from `main.py` are embedded shallowly: the Postgres
database is a record of in-memory tables, each SQL statement becomes a
pure function on that record, and the psycopg2 transaction (all statements
buffered until `conn.commit()`, discarded by `conn.rollback()` on an
exception) becomes an `Except`-valued computation whose error branch
returns the pre-call database.  The stored procedure `process_match` and
the contents of the `ranks` table live in the database, not in the
repository; they are modelled from the spec where needed and marked as
such in their doc comments.
-/

namespace Tischkicker

/-- A row of the `ranks` table: id, display name, minimum elo, icon URL. -/
structure Rank where
  id : ℕ
  name : String
  min_elo : ℤ
  icon_url : String
deriving DecidableEq, Repr

/-- A row of the `players` table (`rank_id` is a nullable foreign key). -/
structure Player where
  name : String
  elo : ℤ
  wins : ℕ
  losses : ℕ
  rank_id : Option ℕ
deriving DecidableEq, Repr

/-- A row of the `matches` table. -/
structure MatchRec where
  mode : String
  score_team1 : ℤ
  score_team2 : ℤ
  processed : Bool
deriving DecidableEq, Repr

abbrev PlayerId := ℕ

/-- The request body of `POST /api/matches` (pydantic model `MatchCreate`);
the client may supply a `mode` field, defaulted to `"solo"`. -/
structure MatchCreate where
  team1_ids : List PlayerId
  team2_ids : List PlayerId
  score_team1 : ℤ
  score_team2 : ℤ
  mode : String := "solo"
deriving DecidableEq, Repr

/-- The database state: the four tables and a fresh-id counter standing in
for the sequence generating primary keys. -/
structure DB where
  players : List (PlayerId × Player)
  ranks : List Rank
  matchRows : List (ℕ × MatchRec)
  match_players : List (ℕ × PlayerId × ℕ)
  nextId : ℕ
deriving DecidableEq, Repr

/-- The SQL subquery `SELECT MAX(min_elo) FROM ranks WHERE min_elo <= elo`,
returned together with its row: the rank whose `min_elo` is the greatest
value not exceeding `elo`, or `none` when no rank qualifies. -/
def bestRank : List Rank → ℤ → Option Rank
  | [], _ => none
  | r :: rs, elo =>
    match bestRank rs elo with
    | none => if r.min_elo ≤ elo then some r else none
    | some b => if r.min_elo ≤ elo ∧ b.min_elo ≤ r.min_elo then some r else some b

/-- Modelled from the spec: the default contents of the `ranks` table
(`Bronze≥0, Silber≥1000, Gold≥1500, Diamant≥2200, Elite≥3800,
Champion≥5500`), which live in the database rather than in the repository.
Icon URLs are not specified and are left empty. -/
def defaultRanks : List Rank :=
  [⟨1, "Bronze", 0, ""⟩, ⟨2, "Silber", 1000, ""⟩, ⟨3, "Gold", 1500, ""⟩,
   ⟨4, "Diamant", 2200, ""⟩, ⟨5, "Elite", 3800, ""⟩, ⟨6, "Champion", 5500, ""⟩]

/-- The `UPDATE players p SET rank_id = r.id FROM ranks r WHERE ... AND
r.min_elo = (SELECT MAX(min_elo) FROM ranks WHERE min_elo <= p.elo)`
statement, applied to a single player row: when a qualifying rank exists
the row's `rank_id` is set to its id, otherwise the UPDATE matches no row
and the player is unchanged. -/
def setRank (ranks : List Rank) (p : Player) : Player :=
  match bestRank ranks p.elo with
  | some r => { p with rank_id := some r.id }
  | none => p

/-- Python's `str.strip()` as used on player names: drop whitespace from
both ends (a structural model of the library function, so that the kernel
can evaluate it). -/
def strip (s : String) : String :=
  ⟨((s.data.dropWhile Char.isWhitespace).reverse.dropWhile
      Char.isWhitespace).reverse⟩

/-- Decidable equality of request outcomes, componentwise. -/
instance {ε α : Type} [DecidableEq ε] [DecidableEq α] : DecidableEq (Except ε α)
  | .error e, .error f =>
    if h : e = f then .isTrue (by rw [h]) else .isFalse (fun hc => h (by cases hc; rfl))
  | .error _, .ok _ => .isFalse (fun hc => by cases hc)
  | .ok _, .error _ => .isFalse (fun hc => by cases hc)
  | .ok a, .ok b =>
    if h : a = b then .isTrue (by rw [h]) else .isFalse (fun hc => h (by cases hc; rfl))

/-- Handler `POST /api/players` (`add_player` in `main.py`): reject a name that is
empty after stripping, otherwise insert the player with elo 1000, wins 0,
losses 0, then set its rank from the ranks table, and commit.  Returns the
new state and the new player's id. -/
def add_player (name : String) (db : DB) : Except String (DB × PlayerId) :=
  if strip name = "" then .error "Spielername darf nicht leer sein!"
  else
    let pid := db.nextId
    let p : Player := ⟨strip name, 1000, 0, 0, none⟩
    .ok ({ db with
            players := db.players ++ [(pid, setRank db.ranks p)],
            nextId := db.nextId + 1 }, pid)

/-! ## The rating update engine

The engine is the stored procedure `process_match`, which lives in the
database, not in the repository; `main.py` only calls
`SELECT process_match(match_id)`.  It is modelled from the spec. -/

/-- Modelled from the spec: expected outcome for side A,
`E_A = 1 / (1 + 10^((ratingB - ratingA)/400))`. -/
noncomputable def expectedA (rA rB : ℝ) : ℝ :=
  1 / (1 + (10 : ℝ) ^ ((rB - rA) / 400))

/-- Modelled from the spec: actual outcome for side A (`1` win, `0` loss,
`0.5` tie). -/
noncomputable def actualA (sA sB : ℤ) : ℝ :=
  if sA > sB then 1 else if sA < sB then 0 else 1 / 2

/-- Modelled from the spec: margin-of-victory amplifier
`min(2.5, 1 + 0.4 * |scoreA - scoreB|)`. -/
noncomputable def goalFactor (sA sB : ℤ) : ℝ :=
  min 2.5 (1 + 0.4 * |(sA : ℝ) - (sB : ℝ)|)

/-- Modelled from the spec: `delta = K * (actual_A - E_A) * goalFactor`
with `K = 80`. -/
noncomputable def ratingDelta (rA rB : ℝ) (sA sB : ℤ) : ℝ :=
  80 * (actualA sA sB - expectedA rA rB) * goalFactor sA sB

/-- Modelled from the spec: ratings are clamped to `[0, 6000]`. -/
def clamp (x : ℤ) : ℤ := max 0 (min 6000 x)

/-- Modelled from the spec: `newRatingA = clamp(round(ratingA + delta), 0, 6000)`. -/
noncomputable def newRatingA (rA rB : ℝ) (sA sB : ℤ) : ℤ :=
  clamp (round (rA + ratingDelta rA rB sA sB))

/-- Modelled from the spec: `newRatingB = clamp(round(ratingB - delta), 0, 6000)`. -/
noncomputable def newRatingB (rA rB : ℝ) (sA sB : ℤ) : ℤ :=
  clamp (round (rB - ratingDelta rA rB sA sB))

/-! ## Match processing -/

/-- Statement `SELECT ... FROM players WHERE id = pid` (single row). -/
def findPlayer (db : DB) (pid : PlayerId) : Option Player :=
  (db.players.find? (fun q => q.1 = pid)).map (·.2)

/-- The elos of the rostered players that exist in the store. -/
def teamElos (db : DB) (pids : List PlayerId) : List ℤ :=
  pids.filterMap (fun pid => (findPlayer db pid).map Player.elo)

/-- Modelled from the spec: a side's representative rating, the average of
its players' elos (the spec leaves multi-player aggregation open and asks
for a single representative rating; for a solo roster this is exactly that
player's elo, the only case the spec pins down). -/
noncomputable def teamAvg (db : DB) (pids : List PlayerId) : ℝ :=
  ((teamElos db pids).sum : ℝ) / ((teamElos db pids).length : ℝ)

/-- Modelled from the spec: the per-player effect of the stored procedure
`process_match`.  A team-1 player gets `newRatingA` of their own elo
against team 2's representative rating and a win (loss) tally increment
when their side's score is greater (smaller); ties touch neither tally.
Team-2 players are symmetric.  Players on neither roster are unchanged. -/
noncomputable def processedPlayer (db : DB) (t1 t2 : List PlayerId)
    (s1 s2 : ℤ) (pid : PlayerId) (p : Player) : Player :=
  if pid ∈ t1 then
    { p with
        elo := newRatingA (p.elo : ℝ) (teamAvg db t2) s1 s2,
        wins := if s1 > s2 then p.wins + 1 else p.wins,
        losses := if s1 < s2 then p.losses + 1 else p.losses }
  else if pid ∈ t2 then
    { p with
        elo := newRatingB (teamAvg db t1) (p.elo : ℝ) s1 s2,
        wins := if s2 > s1 then p.wins + 1 else p.wins,
        losses := if s2 < s1 then p.losses + 1 else p.losses }
  else p

/-- Modelled from the spec: the stored procedure `process_match`, applied
to the match's rosters and scores.  It fails (`none`) when a rostered
player id is missing from the store, and otherwise rewrites every player
row through `processedPlayer`, reading all elos from the pre-call state. -/
noncomputable def process_match (db : DB) (t1 t2 : List PlayerId)
    (s1 s2 : ℤ) : Option DB :=
  if (t1 ++ t2).all (fun pid => (findPlayer db pid).isSome) then
    some { db with
            players := db.players.map
              (fun q => (q.1, processedPlayer db t1 t2 s1 s2 q.1 q.2)) }
  else none

/-- Statement `INSERT INTO matches (mode, score_team1, score_team2, processed)
VALUES (..., FALSE) RETURNING id` — the returned id is the fresh counter. -/
def insertMatchRow (mid : ℕ) (mode : String) (s1 s2 : ℤ) (db : DB) : DB :=
  { db with
      matchRows := db.matchRows ++ [(mid, ⟨mode, s1, s2, false⟩)],
      nextId := db.nextId + 1 }

/-- Statement `INSERT INTO match_players (match_id, player_id, team) VALUES (...)`. -/
def insertMP (mid : ℕ) (pid : PlayerId) (team : ℕ) (db : DB) : DB :=
  { db with match_players := db.match_players ++ [(mid, pid, team)] }

/-- The rank refresh after `process_match`: the `UPDATE players ... FROM
ranks` statement restricted to the ids rostered in this match (in SQL the
set is recovered from `match_players WHERE match_id = mid`, which for the
freshly inserted match is exactly the request's two rosters). -/
def updateRanks (pids : List PlayerId) (db : DB) : DB :=
  { db with
      players := db.players.map
        (fun q => if q.1 ∈ pids then (q.1, setRank db.ranks q.2) else q) }

/-- Statement `UPDATE matches SET processed = TRUE WHERE id = mid`. -/
def markProcessed (mid : ℕ) (db : DB) : DB :=
  { db with
      matchRows := db.matchRows.map
        (fun q => if q.1 = mid then (q.1, { q.2 with processed := true }) else q) }

/-- In-flight transaction state: the uncommitted database and a statement
counter used by the failure schedule. -/
structure Tx where
  db : DB
  k : ℕ
deriving DecidableEq

/-- One buffered store write.  `F` is the failure schedule: `F k = true`
means the `k`-th statement of the transaction raises a store error
(psycopg2 exception), which `add_match` turns into a rollback. -/
def wstep (F : ℕ → Bool) (f : DB → DB) (t : Tx) : Except String Tx :=
  if F t.k then .error "store failure" else .ok ⟨f t.db, t.k + 1⟩

/-- The loop inserting one `match_players` row per rostered player. -/
def insertMPs (F : ℕ → Bool) (mid : ℕ) (team : ℕ) :
    List PlayerId → Tx → Except String Tx
  | [], t => .ok t
  | pid :: rest, t =>
    match wstep F (insertMP mid pid team) t with
    | .error e => .error e
    | .ok t' => insertMPs F mid team rest t'

/-- The `SELECT process_match(match_id)` statement: raises either on the
failure schedule or when the procedure itself fails (missing player). -/
noncomputable def pstep (F : ℕ → Bool) (t1 t2 : List PlayerId)
    (s1 s2 : ℤ) (t : Tx) : Except String Tx :=
  if F t.k then .error "store failure"
  else
    match process_match t.db t1 t2 s1 s2 with
    | some d => .ok ⟨d, t.k + 1⟩
    | none => .error "player not found"

/-- The statement sequence inside `add_match`'s `try` block, on the
uncommitted transaction state. -/
noncomputable def add_match_tx (F : ℕ → Bool) (m : MatchCreate)
    (mode : String) (mid : ℕ) (db : DB) : Except String DB :=
  match wstep F (insertMatchRow mid mode m.score_team1 m.score_team2) ⟨db, 0⟩ with
  | .error e => .error e
  | .ok t1 =>
  match insertMPs F mid 1 m.team1_ids t1 with
  | .error e => .error e
  | .ok t2 =>
  match insertMPs F mid 2 m.team2_ids t2 with
  | .error e => .error e
  | .ok t3 =>
  match pstep F m.team1_ids m.team2_ids m.score_team1 m.score_team2 t3 with
  | .error e => .error e
  | .ok t4 =>
  match wstep F (updateRanks (m.team1_ids ++ m.team2_ids)) t4 with
  | .error e => .error e
  | .ok t5 =>
  match wstep F (markProcessed mid) t5 with
  | .error e => .error e
  | .ok t6 => .ok t6.db

/-- The derived match mode (`main.py` lines 132-135): `"solo"` unless a
roster has more than one entry, then `"duo"`; the client's `mode` field is
never consulted. -/
def derivedMode (m : MatchCreate) : String :=
  if m.team1_ids.length > 1 ∨ m.team2_ids.length > 1 then "duo" else "solo"

/-- Handler `POST /api/matches` (`add_match` in `main.py`): validate the rosters
(HTTP 400, before the store is touched), derive the mode, then run the
transaction; `.ok` is the committed state, `.error` carries the detail of
the raised `HTTPException`. -/
noncomputable def add_match (F : ℕ → Bool) (m : MatchCreate) (db : DB) :
    Except String (DB × ℕ) :=
  if m.team1_ids = [] ∨ m.team2_ids = [] then
    .error "Beide Teams brauchen mindestens einen Spieler"
  else if m.team1_ids.filter (fun pid => pid ∈ m.team2_ids) ≠ [] then
    .error "Ein Spieler kann nicht in beiden Teams sein"
  else
    match add_match_tx F m (derivedMode m) db.nextId db with
    | .ok d => .ok (d, db.nextId)
    | .error e => .error e

/-- The database as observed after the request returns: the committed
state on success, the rolled-back (pre-call) state on any error. -/
noncomputable def add_match_final (F : ℕ → Bool) (m : MatchCreate) (db : DB) : DB :=
  match add_match F m db with
  | .ok (d, _) => d
  | .error _ => db

/-! ## Leaderboard -/

/-- A row of the `GET /api/leaderboard` response: `p.id, p.name, p.elo,
p.wins, p.losses, r.name AS rank_name, r.icon_url`, with the rank columns
null when the left join finds no rank. -/
structure LBEntry where
  id : PlayerId
  name : String
  elo : ℤ
  wins : ℕ
  losses : ℕ
  rank_name : Option String
  icon_url : Option String
deriving DecidableEq, Repr

/-- The `LEFT JOIN ranks r ON p.rank_id = r.id` projection for one player
row. -/
def lbEntry (db : DB) (q : PlayerId × Player) : LBEntry :=
  let r := db.ranks.find? (fun r => some r.id = q.2.rank_id)
  ⟨q.1, q.2.name, q.2.elo, q.2.wins, q.2.losses, r.map Rank.name, r.map Rank.icon_url⟩

/-- Handler `GET /api/leaderboard` (`get_leaderboard` in `main.py`): every player
row joined with its rank, ordered by elo descending (`ORDER BY p.elo
DESC`).  The handler takes no parameters. -/
def get_leaderboard (db : DB) : List LBEntry :=
  List.insertionSort (fun a b => b.elo ≤ a.elo) (db.players.map (lbEntry db))

/-- Modelled from the spec's words (for comparison with the code, not from
the source): `listLeaderboard(limit?: int)` — the elo-descending sequence,
truncated to `limit` entries when a limit is supplied. -/
def listLeaderboardSpec (limit : Option ℕ) (db : DB) : List LBEntry :=
  match limit with
  | some n => (get_leaderboard db).take n
  | none => get_leaderboard db

/-! ## Theorems -/

/-- C1: for a match between two players both rated 1000 with scores 3 and
1, the rating update gives expected outcome 0.5, actual outcome 1, goal
factor 1.8, delta 72, so the winner's new rating is 1072 (tier Silber)
and the loser's new rating is 928 (tier Bronze). -/
theorem c1_rating_scenario_1000_each_3_1 :
    expectedA 1000 1000 = 1 / 2 ∧
    actualA 3 1 = 1 ∧
    goalFactor 3 1 = 1.8 ∧
    ratingDelta 1000 1000 3 1 = 72 ∧
    newRatingA 1000 1000 3 1 = 1072 ∧
    newRatingB 1000 1000 3 1 = 928 ∧
    (bestRank defaultRanks 1072).map Rank.name = some "Silber" ∧
    (bestRank defaultRanks 928).map Rank.name = some "Bronze" := by
  have he : expectedA 1000 1000 = 1 / 2 := by
    unfold expectedA
    rw [show ((1000 : ℝ) - 1000) / 400 = 0 by norm_num, Real.rpow_zero]
    norm_num
  have ha : actualA 3 1 = 1 := by norm_num [actualA]
  have hg : goalFactor 3 1 = 1.8 := by
    unfold goalFactor
    rw [show |((3 : ℤ) : ℝ) - ((1 : ℤ) : ℝ)| = 2 by norm_num]
    norm_num
  have hd : ratingDelta 1000 1000 3 1 = 72 := by
    unfold ratingDelta
    rw [he, ha, hg]
    norm_num
  have hA : newRatingA 1000 1000 3 1 = 1072 := by
    unfold newRatingA
    rw [hd, show (1000 : ℝ) + 72 = ((1072 : ℤ) : ℝ) by norm_num, round_intCast]
    decide
  have hB : newRatingB 1000 1000 3 1 = 928 := by
    unfold newRatingB
    rw [hd, show (1000 : ℝ) - 72 = ((928 : ℤ) : ℝ) by norm_num, round_intCast]
    decide
  exact ⟨he, ha, hg, hd, hA, hB, by decide, by decide⟩

/-- C7: for input ratings within `[0, 6000]` and any integer scores, both
new ratings returned by the rating update lie within `[0, 6000]` (the
results are clamped to the bounds). -/
theorem c7_ratings_stay_in_bounds (rA rB sA sB : ℤ)
    (hA0 : 0 ≤ rA) (hA1 : rA ≤ 6000) (hB0 : 0 ≤ rB) (hB1 : rB ≤ 6000) :
    0 ≤ newRatingA (rA : ℝ) (rB : ℝ) sA sB ∧
    newRatingA (rA : ℝ) (rB : ℝ) sA sB ≤ 6000 ∧
    0 ≤ newRatingB (rA : ℝ) (rB : ℝ) sA sB ∧
    newRatingB (rA : ℝ) (rB : ℝ) sA sB ≤ 6000 := by
  unfold newRatingA newRatingB clamp
  exact ⟨le_max_left _ _, max_le (by norm_num) (min_le_left _ _),
    le_max_left _ _, max_le (by norm_num) (min_le_left _ _)⟩

/-- Witness for C7 at ratings 1000 vs 1000, scores 3 : 1. -/
theorem c7_ratings_stay_in_bounds_witness :
    ((0 : ℤ) ≤ 1000 ∧ (1000 : ℤ) ≤ 6000) ∧
    (0 ≤ newRatingA ((1000 : ℤ) : ℝ) ((1000 : ℤ) : ℝ) 3 1 ∧
     newRatingA ((1000 : ℤ) : ℝ) ((1000 : ℤ) : ℝ) 3 1 ≤ 6000 ∧
     0 ≤ newRatingB ((1000 : ℤ) : ℝ) ((1000 : ℤ) : ℝ) 3 1 ∧
     newRatingB ((1000 : ℤ) : ℝ) ((1000 : ℤ) : ℝ) 3 1 ≤ 6000) :=
  ⟨⟨by decide, by decide⟩,
   c7_ratings_stay_in_bounds 1000 1000 3 1 (by decide) (by decide)
     (by decide) (by decide)⟩

/-- When `bestRank` finds a row, that row is in the table and qualifies. -/
theorem bestRank_mem_le {ranks : List Rank} {e : ℤ} {b : Rank}
    (h : bestRank ranks e = some b) : b ∈ ranks ∧ b.min_elo ≤ e := by
  induction ranks generalizing b with
  | nil => simp [bestRank] at h
  | cons r rs ih =>
    rw [bestRank] at h
    cases hb : bestRank rs e with
    | none =>
      rw [hb] at h
      by_cases hr : r.min_elo ≤ e
      · simp [hr] at h
        exact ⟨by simp [← h], by rw [← h]; exact hr⟩
      · simp [hr] at h
    | some c =>
      rw [hb] at h
      by_cases hc : r.min_elo ≤ e ∧ c.min_elo ≤ r.min_elo
      · simp [hc] at h
        exact ⟨by simp [← h], by rw [← h]; exact hc.1⟩
      · simp [hc] at h
        obtain ⟨hmem, hce⟩ := ih hb
        exact ⟨by simp [← h, hmem], by rw [← h]; exact hce⟩

/-- When `bestRank` finds nothing, no row of the table qualifies. -/
theorem bestRank_none_iff_empty {ranks : List Rank} {e : ℤ}
    (h : bestRank ranks e = none) : ∀ u ∈ ranks, e < u.min_elo := by
  induction ranks with
  | nil => simp
  | cons r rs ih =>
    rw [bestRank] at h
    cases hb : bestRank rs e with
    | none =>
      rw [hb] at h
      by_cases hr : r.min_elo ≤ e
      · simp [hr] at h
      · intro u hu
        rcases List.mem_cons.mp hu with rfl | hu
        · exact lt_of_not_le hr
        · exact ih hb u hu
    | some c => rw [hb] at h; by_cases hc : r.min_elo ≤ e ∧ c.min_elo ≤ r.min_elo <;> simp [hc] at h

/-- The row `bestRank` finds has the greatest `min_elo` among qualifying
rows. -/
theorem bestRank_greatest {ranks : List Rank} {e : ℤ} {b : Rank}
    (h : bestRank ranks e = some b) :
    ∀ u ∈ ranks, u.min_elo ≤ e → u.min_elo ≤ b.min_elo := by
  induction ranks generalizing b with
  | nil => simp
  | cons r rs ih =>
    rw [bestRank] at h
    cases hb : bestRank rs e with
    | none =>
      rw [hb] at h
      by_cases hr : r.min_elo ≤ e
      · simp [hr] at h
        intro u hu hue
        rcases List.mem_cons.mp hu with rfl | hu
        · rw [← h]
        · exact absurd hue (not_le.mpr (bestRank_none_iff_empty hb u hu))
      · simp [hr] at h
    | some c =>
      rw [hb] at h
      by_cases hc : r.min_elo ≤ e ∧ c.min_elo ≤ r.min_elo
      · simp [hc] at h
        intro u hu hue
        rcases List.mem_cons.mp hu with rfl | hu
        · rw [← h]
        · rw [← h]; exact (ih hb u hu hue).trans hc.2
      · simp [hc] at h
        intro u hu hue
        rcases List.mem_cons.mp hu with rfl | hu
        · rw [← h]
          rcases not_and_or.mp hc with hre | hcr
          · exact absurd hue hre
          · exact le_of_not_le hcr
        · rw [← h]; exact ih hb u hu hue

/-- When some row qualifies, `bestRank` finds one. -/
theorem bestRank_isSome {ranks : List Rank} {e : ℤ}
    (h : ∃ u ∈ ranks, u.min_elo ≤ e) : ∃ b, bestRank ranks e = some b := by
  induction ranks with
  | nil => simp at h
  | cons r rs ih =>
    rw [bestRank]
    cases hb : bestRank rs e with
    | none =>
      obtain ⟨u, hu, hue⟩ := h
      rcases List.mem_cons.mp hu with rfl | hu
      · simp [hue]
      · exact absurd hue (not_le.mpr (bestRank_none_iff_empty hb u hu))
    | some c =>
      by_cases hc : r.min_elo ≤ e ∧ c.min_elo ≤ r.min_elo <;> simp [hc]

/-- C8: Rank Table lookup is monotone: for ratings `r1 ≤ r2` the tier
found for `r1` has a minimum rating no greater than the tier found for
`r2`; moreover lookup returns the tier whose minimum rating is the
greatest value not exceeding the given rating. -/
theorem c8_lookup_monotone (ranks : List Rank) (r1 r2 : ℤ) (b1 : Rank)
    (hle : r1 ≤ r2) (h1 : bestRank ranks r1 = some b1) :
    (b1.min_elo ≤ r1 ∧ ∀ u ∈ ranks, u.min_elo ≤ r1 → u.min_elo ≤ b1.min_elo) ∧
    ∃ b2, bestRank ranks r2 = some b2 ∧ b1.min_elo ≤ b2.min_elo := by
  obtain ⟨hmem, hb1e⟩ := bestRank_mem_le h1
  refine ⟨⟨hb1e, bestRank_greatest h1⟩, ?_⟩
  obtain ⟨b2, hb2⟩ := bestRank_isSome ⟨b1, hmem, hb1e.trans hle⟩
  exact ⟨b2, hb2, bestRank_greatest hb2 b1 hmem (hb1e.trans hle)⟩

/-- Witness for C8 on the default table at ratings 500 and 1200. -/
theorem c8_lookup_monotone_witness :
    ((500 : ℤ) ≤ 1200 ∧ bestRank defaultRanks 500 = some ⟨1, "Bronze", 0, ""⟩) ∧
    ((Rank.min_elo ⟨1, "Bronze", 0, ""⟩ ≤ 500 ∧
      ∀ u ∈ defaultRanks, u.min_elo ≤ 500 → u.min_elo ≤ Rank.min_elo ⟨1, "Bronze", 0, ""⟩) ∧
     ∃ b2, bestRank defaultRanks 1200 = some b2 ∧
       Rank.min_elo ⟨1, "Bronze", 0, ""⟩ ≤ b2.min_elo) :=
  ⟨⟨by decide, by decide⟩,
   c8_lookup_monotone defaultRanks 500 1200 ⟨1, "Bronze", 0, ""⟩
     (by decide) (by decide)⟩

/-- A successful buffered write applies its statement to the uncommitted
state. -/
theorem wstep_ok {F : ℕ → Bool} {f : DB → DB} {t t' : Tx}
    (h : wstep F f t = .ok t') : t'.db = f t.db := by
  unfold wstep at h
  split at h
  · cases h
  · cases h; rfl

/-- The `match_players` insert loop touches neither the player rows nor
the ranks nor the match rows. -/
theorem insertMPs_ok_fields {F : ℕ → Bool} {mid team : ℕ}
    {pids : List PlayerId} {t t' : Tx}
    (h : insertMPs F mid team pids t = .ok t') :
    t'.db.players = t.db.players ∧ t'.db.ranks = t.db.ranks ∧
    t'.db.matchRows = t.db.matchRows := by
  induction pids generalizing t with
  | nil => rw [insertMPs] at h; cases h; exact ⟨rfl, rfl, rfl⟩
  | cons pid rest ih =>
    rw [insertMPs] at h
    cases hw : wstep F (insertMP mid pid team) t with
    | error e => rw [hw] at h; cases h
    | ok t1 =>
      rw [hw] at h
      obtain ⟨h1, h2, h3⟩ := ih h
      rw [h1, h2, h3, wstep_ok hw]
      exact ⟨rfl, rfl, rfl⟩

/-- A successful `SELECT process_match(...)` statement means the procedure
returned the new state. -/
theorem pstep_ok {F : ℕ → Bool} {t1 t2 : List PlayerId} {s1 s2 : ℤ}
    {t t' : Tx} (h : pstep F t1 t2 s1 s2 t = .ok t') :
    process_match t.db t1 t2 s1 s2 = some t'.db := by
  unfold pstep at h
  split at h
  · cases h
  · cases hp : process_match t.db t1 t2 s1 s2 with
    | none => rw [hp] at h; cases h
    | some d => rw [hp] at h; cases h; rfl

/-- Characterization of a successful `process_match` run: every rostered
id was found, and only the player rows changed, via `processedPlayer`. -/
theorem process_match_some {db : DB} {t1 t2 : List PlayerId} {s1 s2 : ℤ}
    {d : DB} (h : process_match db t1 t2 s1 s2 = some d) :
    d.players = db.players.map
      (fun q => (q.1, processedPlayer db t1 t2 s1 s2 q.1 q.2)) ∧
    d.ranks = db.ranks ∧ d.matchRows = db.matchRows ∧
    ((t1 ++ t2).all (fun pid => (findPlayer db pid).isSome)) = true := by
  unfold process_match at h
  split at h
  next hall => cases h; exact ⟨rfl, rfl, rfl, hall⟩
  next => cases h

/-- Shape of a committed `add_match` transaction: an insert-only state
`dbi` carrying the new (unprocessed) match row, the state `dbp` produced
by the stored procedure on it, then the rank refresh and the processed
flag. -/
theorem add_match_tx_ok_shape {F : ℕ → Bool} {m : MatchCreate}
    {mode : String} {mid : ℕ} {db d : DB}
    (h : add_match_tx F m mode mid db = .ok d) :
    ∃ dbi dbp : DB,
      dbi.players = db.players ∧ dbi.ranks = db.ranks ∧
      dbi.matchRows = db.matchRows ++
        [(mid, ⟨mode, m.score_team1, m.score_team2, false⟩)] ∧
      process_match dbi m.team1_ids m.team2_ids m.score_team1 m.score_team2
        = some dbp ∧
      d = markProcessed mid (updateRanks (m.team1_ids ++ m.team2_ids) dbp) := by
  unfold add_match_tx at h
  cases h1 : wstep F (insertMatchRow mid mode m.score_team1 m.score_team2) ⟨db, 0⟩ with
  | error e => rw [h1] at h; dsimp only at h; cases h
  | ok t1 =>
  rw [h1] at h
  dsimp only at h
  cases h2 : insertMPs F mid 1 m.team1_ids t1 with
  | error e => rw [h2] at h; dsimp only at h; cases h
  | ok t2 =>
  rw [h2] at h
  dsimp only at h
  cases h3 : insertMPs F mid 2 m.team2_ids t2 with
  | error e => rw [h3] at h; dsimp only at h; cases h
  | ok t3 =>
  rw [h3] at h
  dsimp only at h
  cases h4 : pstep F m.team1_ids m.team2_ids m.score_team1 m.score_team2 t3 with
  | error e => rw [h4] at h; dsimp only at h; cases h
  | ok t4 =>
  rw [h4] at h
  dsimp only at h
  cases h5 : wstep F (updateRanks (m.team1_ids ++ m.team2_ids)) t4 with
  | error e => rw [h5] at h; dsimp only at h; cases h
  | ok t5 =>
  rw [h5] at h
  dsimp only at h
  cases h6 : wstep F (markProcessed mid) t5 with
  | error e => rw [h6] at h; dsimp only at h; cases h
  | ok t6 =>
  rw [h6] at h
  dsimp only at h
  cases h
  refine ⟨t3.db, t4.db, ?_, ?_, ?_, pstep_ok h4, ?_⟩
  · obtain ⟨a1, _, _⟩ := insertMPs_ok_fields h3
    obtain ⟨b1, _, _⟩ := insertMPs_ok_fields h2
    rw [a1, b1, wstep_ok h1]
    rfl
  · obtain ⟨_, a2, _⟩ := insertMPs_ok_fields h3
    obtain ⟨_, b2, _⟩ := insertMPs_ok_fields h2
    rw [a2, b2, wstep_ok h1]
    rfl
  · obtain ⟨_, _, a3⟩ := insertMPs_ok_fields h3
    obtain ⟨_, _, b3⟩ := insertMPs_ok_fields h2
    rw [a3, b3, wstep_ok h1]
    rfl
  · rw [wstep_ok h6, wstep_ok h5]

/-- With a never-failing store the `match_players` insert loop succeeds. -/
theorem insertMPs_noFail (mid team : ℕ) (pids : List PlayerId) (t : Tx) :
    ∃ t', insertMPs (fun _ => false) mid team pids t = .ok t' := by
  induction pids generalizing t with
  | nil => exact ⟨t, rfl⟩
  | cons pid rest ih =>
    rw [insertMPs]
    have hw : wstep (fun _ => false) (insertMP mid pid team) t =
        .ok ⟨insertMP mid pid team t.db, t.k + 1⟩ := rfl
    rw [hw]
    exact ih _

/-- Lookup `findPlayer` reads only the player rows. -/
theorem findPlayer_congr {db1 db2 : DB} (h : db1.players = db2.players) :
    ∀ pid, findPlayer db1 pid = findPlayer db2 pid := by
  intro pid
  unfold findPlayer
  rw [h]

/-- With a never-failing store and every rostered id present, the
`add_match` transaction commits. -/
theorem add_match_tx_noFail (m : MatchCreate) (mode : String) (mid : ℕ)
    (db : DB)
    (h4 : ∀ pid ∈ m.team1_ids ++ m.team2_ids, (findPlayer db pid).isSome = true) :
    ∃ d, add_match_tx (fun _ => false) m mode mid db = .ok d := by
  unfold add_match_tx
  have h1 : wstep (fun _ => false)
      (insertMatchRow mid mode m.score_team1 m.score_team2) ⟨db, 0⟩ =
      .ok ⟨insertMatchRow mid mode m.score_team1 m.score_team2 db, 1⟩ := rfl
  rw [h1]
  dsimp only
  obtain ⟨t2, ht2⟩ := insertMPs_noFail mid 1 m.team1_ids
    ⟨insertMatchRow mid mode m.score_team1 m.score_team2 db, 1⟩
  rw [ht2]
  dsimp only
  obtain ⟨t3, ht3⟩ := insertMPs_noFail mid 2 m.team2_ids t2
  rw [ht3]
  dsimp only
  have hpl : t3.db.players = db.players := by
    rw [(insertMPs_ok_fields ht3).1, (insertMPs_ok_fields ht2).1]
    rfl
  have hall : ((m.team1_ids ++ m.team2_ids).all
      (fun pid => (findPlayer t3.db pid).isSome)) = true := by
    rw [List.all_eq_true]
    intro pid hpid
    rw [findPlayer_congr hpl]
    exact h4 pid hpid
  have hp : pstep (fun _ => false) m.team1_ids m.team2_ids
      m.score_team1 m.score_team2 t3 =
      .ok ⟨{ t3.db with
              players := t3.db.players.map
                (fun q => (q.1, processedPlayer t3.db m.team1_ids m.team2_ids
                  m.score_team1 m.score_team2 q.1 q.2)) }, t3.k + 1⟩ := by
    unfold pstep process_match
    rw [if_neg (by simp), if_pos hall]
  rw [hp]
  dsimp only
  exact ⟨_, rfl⟩

/-- With a never-failing store, valid rosters and all players present,
`add_match` commits and returns the fresh match id. -/
theorem add_match_noFail (m : MatchCreate) (db : DB)
    (h1 : m.team1_ids ≠ []) (h2 : m.team2_ids ≠ [])
    (h3 : ∀ pid ∈ m.team1_ids, pid ∉ m.team2_ids)
    (h4 : ∀ pid ∈ m.team1_ids ++ m.team2_ids, (findPlayer db pid).isSome = true) :
    ∃ d, add_match (fun _ => false) m db = .ok (d, db.nextId) := by
  unfold add_match
  rw [if_neg (by simp [h1, h2])]
  have hfil : m.team1_ids.filter (fun pid => pid ∈ m.team2_ids) = [] := by
    rw [List.filter_eq_nil_iff]
    intro pid hpid
    simpa using h3 pid hpid
  rw [if_neg (by simp [hfil])]
  obtain ⟨d, hd⟩ := add_match_tx_noFail m (derivedMode m) db.nextId db h4
  rw [hd]
  exact ⟨d, rfl⟩

/-- C2: when any step of match processing fails after validation (missing
player id, store-write failure, or any other exception), the whole
transaction is rolled back: the observed state equals the pre-call state,
so no player's rating, tier, wins or losses changes and no match row is
added or marked processed. -/
theorem c2_failure_rolls_back (F : ℕ → Bool) (m : MatchCreate) (db : DB)
    (e : String) (h : add_match F m db = .error e) :
    add_match_final F m db = db ∧
    (add_match_final F m db).players = db.players ∧
    (add_match_final F m db).matchRows = db.matchRows := by
  have hfin : add_match_final F m db = db := by
    unfold add_match_final
    rw [h]
  exact ⟨hfin, by rw [hfin], by rw [hfin]⟩

/-- Witness for C2: a store that fails on the first write aborts a valid
two-player submission and leaves a concrete database untouched. -/
theorem c2_failure_rolls_back_witness :
    add_match (fun _ => true)
        ⟨[0], [1], 3, 1, "solo"⟩
        ⟨[(0, ⟨"A", 1000, 0, 0, none⟩), (1, ⟨"B", 1000, 0, 0, none⟩)],
         defaultRanks, [], [], 2⟩ = .error "store failure" ∧
    add_match_final (fun _ => true)
        ⟨[0], [1], 3, 1, "solo"⟩
        ⟨[(0, ⟨"A", 1000, 0, 0, none⟩), (1, ⟨"B", 1000, 0, 0, none⟩)],
         defaultRanks, [], [], 2⟩ =
      ⟨[(0, ⟨"A", 1000, 0, 0, none⟩), (1, ⟨"B", 1000, 0, 0, none⟩)],
       defaultRanks, [], [], 2⟩ := by
  have h : add_match (fun _ => true)
      ⟨[0], [1], 3, 1, "solo"⟩
      ⟨[(0, ⟨"A", 1000, 0, 0, none⟩), (1, ⟨"B", 1000, 0, 0, none⟩)],
       defaultRanks, [], [], 2⟩ = .error "store failure" := rfl
  exact ⟨h, (c2_failure_rolls_back _ _ _ _ h).1⟩

/-- C4: a submission whose rosters are empty or share a player id is
rejected with the corresponding validation error, and the observed state
is the pre-call state — no match row, match-player row or player change
is written, whatever the store would have done. -/
theorem c4_roster_validation_rejects (F : ℕ → Bool) (m : MatchCreate)
    (db : DB)
    (h : m.team1_ids = [] ∨ m.team2_ids = [] ∨
         ∃ pid, pid ∈ m.team1_ids ∧ pid ∈ m.team2_ids) :
    (add_match F m db = .error "Beide Teams brauchen mindestens einen Spieler" ∨
     add_match F m db = .error "Ein Spieler kann nicht in beiden Teams sein") ∧
    add_match_final F m db = db := by
  have herr : add_match F m db = .error "Beide Teams brauchen mindestens einen Spieler" ∨
      add_match F m db = .error "Ein Spieler kann nicht in beiden Teams sein" := by
    unfold add_match
    by_cases h0 : m.team1_ids = [] ∨ m.team2_ids = []
    · rw [if_pos h0]
      exact Or.inl rfl
    · rw [if_neg h0]
      have hover : m.team1_ids.filter (fun pid => pid ∈ m.team2_ids) ≠ [] := by
        rcases h with h1 | h2 | ⟨pid, hp1, hp2⟩
        · exact absurd (Or.inl h1) h0
        · exact absurd (Or.inr h2) h0
        · exact List.ne_nil_of_mem (List.mem_filter.mpr ⟨hp1, by simpa using hp2⟩)
      rw [if_pos hover]
      exact Or.inr rfl
  exact ⟨herr, by unfold add_match_final; rcases herr with h' | h' <;> rw [h']⟩

/-- Witness for C4: overlapping rosters (player 1 on both sides) are
rejected and a concrete database is left unchanged. -/
theorem c4_roster_validation_rejects_witness :
    (add_match (fun _ => false) ⟨[1], [1], 3, 1, "solo"⟩
        ⟨[], defaultRanks, [], [], 0⟩ =
          .error "Beide Teams brauchen mindestens einen Spieler" ∨
     add_match (fun _ => false) ⟨[1], [1], 3, 1, "solo"⟩
        ⟨[], defaultRanks, [], [], 0⟩ =
          .error "Ein Spieler kann nicht in beiden Teams sein") ∧
    add_match_final (fun _ => false) ⟨[1], [1], 3, 1, "solo"⟩
        ⟨[], defaultRanks, [], [], 0⟩ = ⟨[], defaultRanks, [], [], 0⟩ :=
  c4_roster_validation_rejects (fun _ => false) ⟨[1], [1], 3, 1, "solo"⟩
    ⟨[], defaultRanks, [], [], 0⟩
    (Or.inr (Or.inr ⟨1, by decide, by decide⟩))

/-- C5: the stored mode tag of an accepted match is derived from roster
cardinalities and never taken from the client: whatever `mode` string the
request carries, the stored row's mode is `"solo"` exactly when both
rosters have exactly one entry and `"duo"` otherwise. -/
theorem c5_mode_derived_not_client (F : ℕ → Bool) (t1 t2 : List PlayerId)
    (s1 s2 : ℤ) (clientMode : String) (db db' : DB) (mid : ℕ)
    (hok : add_match F ⟨t1, t2, s1, s2, clientMode⟩ db = .ok (db', mid)) :
    ∃ rec : MatchRec, (mid, rec) ∈ db'.matchRows ∧
      rec.score_team1 = s1 ∧ rec.score_team2 = s2 ∧
      rec.mode = (if t1.length = 1 ∧ t2.length = 1 then "solo" else "duo") ∧
      (rec.mode = "solo" ↔ (t1.length = 1 ∧ t2.length = 1)) := by
  unfold add_match at hok
  by_cases h0 : (⟨t1, t2, s1, s2, clientMode⟩ : MatchCreate).team1_ids = [] ∨
      (⟨t1, t2, s1, s2, clientMode⟩ : MatchCreate).team2_ids = []
  · rw [if_pos h0] at hok; cases hok
  · rw [if_neg h0] at hok
    by_cases h1 : (⟨t1, t2, s1, s2, clientMode⟩ : MatchCreate).team1_ids.filter
        (fun pid => pid ∈ (⟨t1, t2, s1, s2, clientMode⟩ : MatchCreate).team2_ids) ≠ []
    · rw [if_pos h1] at hok; cases hok
    · rw [if_neg h1] at hok
      cases htx : add_match_tx F ⟨t1, t2, s1, s2, clientMode⟩
          (derivedMode ⟨t1, t2, s1, s2, clientMode⟩) db.nextId db with
      | error e => rw [htx] at hok; cases hok
      | ok d =>
        rw [htx] at hok
        dsimp only at hok
        cases hok
        obtain ⟨dbi, dbp, _, _, hrows, hproc, hd⟩ := add_match_tx_ok_shape htx
        obtain ⟨_, _, hprows, _⟩ := process_match_some hproc
        refine ⟨⟨derivedMode ⟨t1, t2, s1, s2, clientMode⟩, s1, s2, true⟩, ?_, rfl, rfl, ?_, ?_⟩
        · rw [hd]
          unfold markProcessed updateRanks
          dsimp only
          rw [hprows, hrows]
          refine List.mem_map.mpr ⟨(db.nextId, ⟨derivedMode ⟨t1, t2, s1, s2, clientMode⟩, s1, s2, false⟩), ?_, ?_⟩
          · exact List.mem_append_right _ (by simp)
          · simp
        · have hne1 : t1 ≠ [] := fun hc => h0 (Or.inl hc)
          have hne2 : t2 ≠ [] := fun hc => h0 (Or.inr hc)
          have hl1 : 1 ≤ t1.length := List.length_pos.mpr hne1
          have hl2 : 1 ≤ t2.length := List.length_pos.mpr hne2
          unfold derivedMode
          dsimp only
          by_cases hgt : t1.length > 1 ∨ t2.length > 1
          · rw [if_pos hgt, if_neg (by omega)]
          · rw [if_neg hgt, if_pos (by omega)]
        · have hne1 : t1 ≠ [] := fun hc => h0 (Or.inl hc)
          have hne2 : t2 ≠ [] := fun hc => h0 (Or.inr hc)
          have hl1 : 1 ≤ t1.length := List.length_pos.mpr hne1
          have hl2 : 1 ≤ t2.length := List.length_pos.mpr hne2
          unfold derivedMode
          dsimp only
          by_cases hgt : t1.length > 1 ∨ t2.length > 1
          · rw [if_pos hgt]
            constructor
            · intro hcon; exact absurd hcon (by decide)
            · intro hcon; omega
          · rw [if_neg hgt]
            exact ⟨fun _ => by omega, fun _ => rfl⟩

/-- Witness for C5: a successful 1-vs-1 submission whose client sent
`mode = "team"` stores mode `"solo"`. -/
theorem c5_mode_derived_not_client_witness :
    ∃ db' mid, add_match (fun _ => false) ⟨[0], [1], 3, 1, "team"⟩
        ⟨[(0, ⟨"A", 1000, 0, 0, none⟩), (1, ⟨"B", 1000, 0, 0, none⟩)],
         defaultRanks, [], [], 2⟩ = .ok (db', mid) ∧
      ∃ rec : MatchRec, (mid, rec) ∈ db'.matchRows ∧
        rec.score_team1 = 3 ∧ rec.score_team2 = 1 ∧
        rec.mode = (if ([0] : List PlayerId).length = 1 ∧ ([1] : List PlayerId).length = 1 then "solo" else "duo") ∧
        (rec.mode = "solo" ↔ (([0] : List PlayerId).length = 1 ∧ ([1] : List PlayerId).length = 1)) := by
  obtain ⟨d, hd⟩ := add_match_noFail ⟨[0], [1], 3, 1, "team"⟩
    ⟨[(0, ⟨"A", 1000, 0, 0, none⟩), (1, ⟨"B", 1000, 0, 0, none⟩)],
     defaultRanks, [], [], 2⟩ (by decide) (by decide) (by decide) (by decide)
  exact ⟨d, 2, hd, c5_mode_derived_not_client (fun _ => false) [0] [1] 3 1 "team" _ d 2 hd⟩

/-- Inverting a successful `add_match`: validation passed and the
transaction committed with the derived mode and the fresh id. -/
theorem add_match_ok_tx {F : ℕ → Bool} {m : MatchCreate} {db d : DB}
    {mid : ℕ} (h : add_match F m db = .ok (d, mid)) :
    mid = db.nextId ∧
    add_match_tx F m (derivedMode m) db.nextId db = .ok d ∧
    m.team1_ids ≠ [] ∧ m.team2_ids ≠ [] := by
  unfold add_match at h
  by_cases h0 : m.team1_ids = [] ∨ m.team2_ids = []
  · rw [if_pos h0] at h; cases h
  · rw [if_neg h0] at h
    by_cases hf : m.team1_ids.filter (fun pid => pid ∈ m.team2_ids) ≠ []
    · rw [if_pos hf] at h; cases h
    · rw [if_neg hf] at h
      cases htx : add_match_tx F m (derivedMode m) db.nextId db with
      | error e => rw [htx] at h; dsimp only at h; cases h
      | ok d' =>
        rw [htx] at h
        dsimp only at h
        cases h
        exact ⟨rfl, rfl, fun hc => h0 (Or.inl hc), fun hc => h0 (Or.inr hc)⟩

/-- A committed transaction leaves the new match row, processed, in the
matches table. -/
theorem add_match_tx_ok_row {F : ℕ → Bool} {m : MatchCreate}
    {mode : String} {mid : ℕ} {db d : DB}
    (h : add_match_tx F m mode mid db = .ok d) :
    (mid, (⟨mode, m.score_team1, m.score_team2, true⟩ : MatchRec)) ∈ d.matchRows := by
  obtain ⟨dbi, dbp, _, _, hrows, hproc, hd⟩ := add_match_tx_ok_shape h
  obtain ⟨_, _, hprows, _⟩ := process_match_some hproc
  rw [hd]
  unfold markProcessed updateRanks
  dsimp only
  rw [hprows, hrows]
  exact List.mem_map.mpr
    ⟨(mid, ⟨mode, m.score_team1, m.score_team2, false⟩),
     List.mem_append_right _ (by simp), by simp⟩

/-- C10: match submission validates only the rosters, never the scores:
for non-empty disjoint rosters whose players exist, any integer scores —
negative or equal included — are accepted, and the match is created and
processed. -/
theorem c10_scores_never_validated (m : MatchCreate) (db : DB)
    (h1 : m.team1_ids ≠ []) (h2 : m.team2_ids ≠ [])
    (h3 : ∀ pid ∈ m.team1_ids, pid ∉ m.team2_ids)
    (h4 : ∀ pid ∈ m.team1_ids ++ m.team2_ids, (findPlayer db pid).isSome = true) :
    ∃ db', add_match (fun _ => false) m db = .ok (db', db.nextId) ∧
      ∃ rec : MatchRec, (db.nextId, rec) ∈ db'.matchRows ∧
        rec.score_team1 = m.score_team1 ∧ rec.score_team2 = m.score_team2 ∧
        rec.processed = true := by
  obtain ⟨d, hd⟩ := add_match_noFail m db h1 h2 h3 h4
  obtain ⟨_, htx, _, _⟩ := add_match_ok_tx hd
  exact ⟨d, hd, ⟨derivedMode m, m.score_team1, m.score_team2, true⟩,
    add_match_tx_ok_row htx, rfl, rfl, rfl⟩

/-- Witness for C10: a match with negative, equal scores (-2 : -2) between
two existing players is accepted and processed. -/
theorem c10_scores_never_validated_witness :
    ∃ db', add_match (fun _ => false) ⟨[0], [1], -2, -2, "solo"⟩
        ⟨[(0, ⟨"A", 1000, 0, 0, none⟩), (1, ⟨"B", 1000, 0, 0, none⟩)],
         defaultRanks, [], [], 2⟩ = .ok (db', 2) ∧
      ∃ rec : MatchRec, (2, rec) ∈ db'.matchRows ∧
        rec.score_team1 = -2 ∧ rec.score_team2 = -2 ∧
        rec.processed = true :=
  c10_scores_never_validated ⟨[0], [1], -2, -2, "solo"⟩
    ⟨[(0, ⟨"A", 1000, 0, 0, none⟩), (1, ⟨"B", 1000, 0, 0, none⟩)],
     defaultRanks, [], [], 2⟩
    (by decide) (by decide) (by decide) (by decide)

/-! ## The tier-consistency invariant -/

/-- The denormalized rank cache agrees with the Rank Table lookup of every
stored player's current elo. -/
def TierConsistent (db : DB) : Prop :=
  ∀ q ∈ db.players, q.2.rank_id = (bestRank db.ranks q.2.elo).map Rank.id

/-- The rank refresh never changes a player's elo. -/
theorem setRank_elo (ranks : List Rank) (p : Player) :
    (setRank ranks p).elo = p.elo := by
  unfold setRank
  split <;> rfl

/-- After a rank refresh, a player whose cache was empty is consistent. -/
theorem setRank_consistent_none {ranks : List Rank} {p : Player}
    (h : p.rank_id = none) :
    (setRank ranks p).rank_id = (bestRank ranks p.elo).map Rank.id := by
  unfold setRank
  split
  next r hb => rw [hb]; rfl
  next hb => rw [hb]; exact h

/-- After a rank refresh, a player whose lookup succeeds is consistent. -/
theorem setRank_consistent_isSome {ranks : List Rank} {p : Player}
    (h : (bestRank ranks p.elo).isSome = true) :
    (setRank ranks p).rank_id = (bestRank ranks p.elo).map Rank.id := by
  unfold setRank
  split
  next r hb => rw [hb]; rfl
  next hb => rw [hb] at h; cases h

/-- With a tier at or below 0 in the table, every non-negative elo has a
rank. -/
theorem bestRank_isSome_of_nonneg {ranks : List Rank} {e : ℤ}
    (hz : ∃ r ∈ ranks, r.min_elo ≤ 0) (he : 0 ≤ e) :
    (bestRank ranks e).isSome = true := by
  obtain ⟨r, hr, hr0⟩ := hz
  obtain ⟨b, hb⟩ := bestRank_isSome ⟨r, hr, hr0.trans he⟩
  rw [hb]
  rfl

/-- Procedure `process_match` leaves players on neither roster untouched. -/
theorem processedPlayer_not_mem {db : DB} {t1 t2 : List PlayerId}
    {s1 s2 : ℤ} {pid : PlayerId} {p : Player}
    (h1 : pid ∉ t1) (h2 : pid ∉ t2) :
    processedPlayer db t1 t2 s1 s2 pid p = p := by
  unfold processedPlayer
  rw [if_neg h1, if_neg h2]

/-- A rostered player's post-update elo is clamped, hence non-negative. -/
theorem processedPlayer_elo_nonneg {db : DB} {t1 t2 : List PlayerId}
    {s1 s2 : ℤ} {pid : PlayerId} {p : Player}
    (h : pid ∈ t1 ∨ pid ∈ t2) :
    0 ≤ (processedPlayer db t1 t2 s1 s2 pid p).elo := by
  unfold processedPlayer
  by_cases h1 : pid ∈ t1
  · rw [if_pos h1]
    show 0 ≤ newRatingA _ _ _ _
    unfold newRatingA clamp
    exact le_max_left 0 _
  · rw [if_neg h1, if_pos (h.resolve_left h1)]
    show 0 ≤ newRatingB _ _ _ _
    unfold newRatingB clamp
    exact le_max_left 0 _

/-- A committed `add_match` transaction preserves tier consistency: the
rank refresh runs on exactly the players whose elo the procedure moved. -/
theorem tierConsistent_tx {F : ℕ → Bool} {m : MatchCreate} {mode : String}
    {mid : ℕ} {db d : DB}
    (htx : add_match_tx F m mode mid db = .ok d)
    (hc : TierConsistent db) (hz : ∃ r ∈ db.ranks, r.min_elo ≤ 0) :
    TierConsistent d := by
  obtain ⟨dbi, dbp, hip, hir, _, hproc, hd⟩ := add_match_tx_ok_shape htx
  obtain ⟨hpp, hpr, _, _⟩ := process_match_some hproc
  have hranks2 : dbp.ranks = db.ranks := by rw [hpr, hir]
  have hdranks : d.ranks = db.ranks := by
    rw [hd]
    show dbp.ranks = db.ranks
    exact hranks2
  have hdplayers : d.players = dbp.players.map
      (fun q => if q.1 ∈ m.team1_ids ++ m.team2_ids
        then (q.1, setRank dbp.ranks q.2) else q) := by
    rw [hd]
    rfl
  intro q' hq'
  rw [hdranks]
  rw [hdplayers, hpp, hip] at hq'
  obtain ⟨q1, hq1, rfl⟩ := List.mem_map.mp hq'
  obtain ⟨q0, hq0, rfl⟩ := List.mem_map.mp hq1
  by_cases hmem : q0.1 ∈ m.team1_ids ++ m.team2_ids
  · rw [if_pos hmem]
    dsimp only
    rw [hranks2, setRank_elo]
    exact setRank_consistent_isSome
      (bestRank_isSome_of_nonneg hz
        (processedPlayer_elo_nonneg (List.mem_append.mp hmem)))
  · rw [if_neg hmem]
    dsimp only
    rw [processedPlayer_not_mem (fun hc1 => hmem (List.mem_append_left _ hc1))
      (fun hc2 => hmem (List.mem_append_right _ hc2))]
    exact hc q0 hq0

/-- C3: every write path keeps the stored rank tier equal to the Rank
Table lookup of the player's current rating: player registration leaves
every row consistent, and match processing (committed or rolled back)
does too, provided the table has a tier at or below rating 0 (the spec's
configuration invariant) and the pre-call state was consistent. -/
theorem c3_tier_equals_lookup (F : ℕ → Bool) (nm : String)
    (m : MatchCreate) (db : DB)
    (hc : TierConsistent db) (hz : ∃ r ∈ db.ranks, r.min_elo ≤ 0) :
    (∀ db' pid, add_player nm db = .ok (db', pid) → TierConsistent db') ∧
    TierConsistent (add_match_final F m db) := by
  constructor
  · intro db' pid hok
    unfold add_player at hok
    split at hok
    · cases hok
    · dsimp only at hok
      cases hok
      intro q hq
      rcases List.mem_append.mp hq with hq | hq
      · exact hc q hq
      · rcases List.mem_singleton.mp hq with rfl
        dsimp only
        rw [setRank_elo]
        exact setRank_consistent_none rfl
  · unfold add_match_final
    cases hmatch : add_match F m db with
    | error e => exact hc
    | ok pr =>
      obtain ⟨d, mid⟩ := pr
      obtain ⟨_, htx, _, _⟩ := add_match_ok_tx hmatch
      exact tierConsistent_tx htx hc hz

/-- Witness for C3: a consistent one-player store stays consistent through
a registration and a (validation-rejected) match call. -/
theorem c3_tier_equals_lookup_witness :
    TierConsistent ⟨[(0, ⟨"A", 1000, 0, 0, some 2⟩)], defaultRanks, [], [], 1⟩ ∧
    ((∀ db' pid, add_player "Max"
        ⟨[(0, ⟨"A", 1000, 0, 0, some 2⟩)], defaultRanks, [], [], 1⟩ =
          .ok (db', pid) → TierConsistent db') ∧
     TierConsistent (add_match_final (fun _ => false) ⟨[0], [0], 1, 1, "solo"⟩
        ⟨[(0, ⟨"A", 1000, 0, 0, some 2⟩)], defaultRanks, [], [], 1⟩)) :=
  ⟨by unfold TierConsistent; decide,
   c3_tier_equals_lookup (fun _ => false) "Max" ⟨[0], [0], 1, 1, "solo"⟩
     ⟨[(0, ⟨"A", 1000, 0, 0, some 2⟩)], defaultRanks, [], [], 1⟩
     (by unfold TierConsistent; decide) ⟨⟨1, "Bronze", 0, ""⟩, by decide, by decide⟩⟩

/-- C6: registering a whitespace-only name is rejected (nothing persisted,
whatever the store holds), while registering "Max" into a fresh store
creates a player with rating 1000, wins 0, losses 0, and tier equal to the
Rank Table lookup of 1000, which under the default table is Silber. -/
theorem c6_registration_scenarios (db : DB) :
    add_player "  " db = .error "Spielername darf nicht leer sein!" ∧
    ∃ db' p, add_player "Max" ⟨[], defaultRanks, [], [], 0⟩ = .ok (db', 0) ∧
      (0, p) ∈ db'.players ∧ p.name = "Max" ∧ p.elo = 1000 ∧
      p.wins = 0 ∧ p.losses = 0 ∧
      p.rank_id = (bestRank defaultRanks 1000).map Rank.id ∧
      (bestRank defaultRanks 1000).map Rank.name = some "Silber" := by
  constructor
  · unfold add_player
    rw [if_pos (by decide)]
  · exact ⟨⟨[(0, ⟨"Max", 1000, 0, 0, some 2⟩)], defaultRanks, [], [], 1⟩,
      ⟨"Max", 1000, 0, 0, some 2⟩, by decide, by decide, rfl, rfl, rfl, rfl,
      by decide, by decide⟩

/-- C9 counterexample: `get_leaderboard` accepts no limit and always
returns every player: with two players stored it returns 2 entries, while
the spec's `listLeaderboard(limit = 1)` returns 1, so the code does not
implement the claimed optional limit. -/
theorem c9_no_limit_counterexample :
    (get_leaderboard
      ⟨[(0, ⟨"A", 1100, 0, 0, some 2⟩), (1, ⟨"B", 900, 0, 0, some 1⟩)],
       defaultRanks, [], [], 2⟩).length = 2 ∧
    (listLeaderboardSpec (some 1)
      ⟨[(0, ⟨"A", 1100, 0, 0, some 2⟩), (1, ⟨"B", 900, 0, 0, some 1⟩)],
       defaultRanks, [], [], 2⟩).length = 1 ∧
    get_leaderboard
      ⟨[(0, ⟨"A", 1100, 0, 0, some 2⟩), (1, ⟨"B", 900, 0, 0, some 1⟩)],
       defaultRanks, [], [], 2⟩ ≠
    listLeaderboardSpec (some 1)
      ⟨[(0, ⟨"A", 1100, 0, 0, some 2⟩), (1, ⟨"B", 900, 0, 0, some 1⟩)],
       defaultRanks, [], [], 2⟩ := by
  decide

/-- C9 (amended): the leaderboard endpoint returns one entry per stored
player — name, rating and joined tier name included — sorted descending
by rating; it accepts no limit parameter and always returns all players. -/
theorem c9_leaderboard_sorted_desc (db : DB) :
    (get_leaderboard db).Pairwise (fun a b => b.elo ≤ a.elo) ∧
    (get_leaderboard db).length = db.players.length ∧
    ∀ q ∈ db.players, lbEntry db q ∈ get_leaderboard db := by
  have htot : IsTotal LBEntry (fun a b : LBEntry => b.elo ≤ a.elo) :=
    ⟨fun a b => le_total b.elo a.elo⟩
  have htr : IsTrans LBEntry (fun a b : LBEntry => b.elo ≤ a.elo) :=
    ⟨fun a b c hab hbc => le_trans hbc hab⟩
  refine ⟨?_, ?_, ?_⟩
  · exact List.sorted_insertionSort _ _
  · unfold get_leaderboard
    rw [(List.perm_insertionSort _ _).length_eq, List.length_map]
  · intro q hq
    unfold get_leaderboard
    exact (List.perm_insertionSort _ _).mem_iff.mpr (List.mem_map_of_mem _ hq)

end Tischkicker
